import Mathlib

/-!
Verification of the POP3 session state machine and MIME decoder of the
Trafficflow email inbox route (`src/app/api/email/inbox/route.ts`).

The TypeScript source is shallowly embedded below.  All string processing is
done on `List Char` (with `String` only at the API boundary) so that every
definition is executable and evaluable by the kernel.  JavaScript regular
expressions used by the source are embedded as deterministic scanners that
reproduce the backtracking behaviour of the concrete patterns appearing in the
code; each scanner is annotated with the regex it models.
-/

namespace Mail

/-- ASCII lower-casing of one character, as performed by the `i` flag of the
JavaScript regexes and by `String.prototype.toLowerCase` on the ASCII header
tokens handled here. -/
def lcChar (c : Char) : Char := c.toLower

/-- JavaScript `\s` restricted to the ASCII whitespace characters
(space, tab, newline, carriage return, vertical tab, form feed). -/
def jsWs (c : Char) : Bool :=
  c == ' ' || c == '\t' || c == '\n' || c == '\r' ||
  c == Char.ofNat 11 || c == Char.ofNat 12

/-- Case-sensitive list prefix test. -/
def isPreL : List Char → List Char → Bool
  | [], _ => true
  | _ :: _, [] => false
  | a :: as, b :: bs => a == b && isPreL as bs

/-- Case-insensitive (ASCII) list prefix test, for regexes with the `i` flag. -/
def isPreCI : List Char → List Char → Bool
  | [], _ => true
  | _ :: _, [] => false
  | a :: as, b :: bs => lcChar a == lcChar b && isPreCI as bs

/-- Mirrors JavaScript `String.prototype.startsWith` on the status lines. -/
def startsWith (p s : String) : Bool := isPreL p.data s.data

/-- Index of the first occurrence of `pat` as a contiguous sublist. -/
def idxOf (pat : List Char) : List Char → Option Nat
  | [] => if pat.isEmpty then some 0 else none
  | c :: cs => if isPreL pat (c :: cs) then some 0 else (idxOf pat cs).map (· + 1)

/-- Index of the first case-insensitive occurrence of `pat`. -/
def idxOfCI (pat : List Char) : List Char → Option Nat
  | [] => if pat.isEmpty then some 0 else none
  | c :: cs => if isPreCI pat (c :: cs) then some 0 else (idxOfCI pat cs).map (· + 1)

/-- Mirrors JavaScript `String.prototype.includes`. -/
def containsSub (pat l : List Char) : Bool := (idxOf pat l).isSome

/-- Split on a non-empty literal separator, left to right, non-overlapping:
the semantics of JavaScript `String.prototype.split` with a literal pattern.
The fuel argument only serves structural termination; every step consumes at
least one character, so starting it at the input length it never runs out. -/
def splitOnAux (sep : List Char) : Nat → List Char → List Char → List (List Char)
  | 0, l, acc => [acc.reverse ++ l]
  | _ + 1, [], acc => [acc.reverse]
  | fuel + 1, c :: cs, acc =>
    if isPreL sep (c :: cs) then
      acc.reverse :: splitOnAux sep fuel (List.drop (sep.length - 1) cs) []
    else
      splitOnAux sep fuel cs (c :: acc)

def splitOnL (sep l : List Char) : List (List Char) := splitOnAux sep l.length l []

/-- Replace every occurrence of a non-empty literal pattern (JavaScript global
replace with a literal). -/
def replaceAllL (pat rep l : List Char) : List Char :=
  List.intercalate rep (splitOnL pat l)

/-- JavaScript `String.prototype.trim` (restricted to ASCII whitespace). -/
def trimL (l : List Char) : List Char :=
  ((l.dropWhile jsWs).reverse.dropWhile jsWs).reverse

/-- Try `f` at every start position of the input, returning the first success:
this is how a JavaScript regex engine scans for the earliest match. -/
def scan1 {α : Type} (f : List Char → Option α) : List Char → Option α
  | [] => f []
  | c :: cs =>
    match f (c :: cs) with
    | some r => some r
    | none => scan1 f cs

/-! ### Header-value matchers (embedding the regexes of `parseMIMEBody`) -/

/-- Capture for the tail `\s*([^…]+)` of a header regex at a fixed position,
where `excl` is the excluded character class of the capture.  The greedy `\s*`
backtracks one character at a time when the capture would otherwise be empty,
so in that case the capture is the single last whitespace character not in
`excl` (all later skipped whitespace being in `excl`). -/
def hValCapture (excl : Char → Bool) (rest : List Char) : Option (List Char) :=
  let ws := rest.takeWhile jsWs
  let rest2 := rest.dropWhile jsWs
  let run := rest2.takeWhile (fun c => !excl c)
  if run ≠ [] then some run
  else
    match ws.reverse.dropWhile excl with
    | [] => none
    | c :: _ => some [c]

/-- One start-position attempt of `NAME:\s*([^…]+)` (case-insensitive). -/
def hdrValAt (nameL : List Char) (excl : Char → Bool) (s : List Char) :
    Option (List Char) :=
  if isPreCI (nameL ++ [':']) s then hValCapture excl (s.drop (nameL.length + 1))
  else none

/-- First match of `NAME:\s*([^…]+)` anywhere in `s` (the `i` flag applied). -/
def findHdrVal (nameL : List Char) (excl : Char → Bool) (s : List Char) :
    Option (List Char) :=
  scan1 (hdrValAt nameL excl) s

/-- Embeds `/Content-Type:\s*([^;\r\n]+)/i` — the per-part content type. -/
def findCTVal (s : List Char) : Option (List Char) :=
  findHdrVal ("Content-Type".data) (fun c => c == ';' || c == '\r' || c == '\n') s

/-- Embeds `/Content-Transfer-Encoding:\s*([^\r\n]+)/i`. -/
def findEncVal (s : List Char) : Option (List Char) :=
  findHdrVal ("Content-Transfer-Encoding".data) (fun c => c == '\r' || c == '\n') s

/-- One start-position attempt of
`/Content-Type:[^;]*;\s*charset=["']?([^"'\r\n]+)["']?/i`.
The class `[^;]*` is forced to stop at the first `;`; an optional opening
quote is consumed first, and if the remaining capture would be empty the
backtracked attempt (starting at the excluded quote) also fails. -/
def charsetAt (s : List Char) : Option (List Char) :=
  if isPreCI ("Content-Type:".data) s then
    let rest := s.drop 13
    let rest2 := rest.dropWhile (fun c => c != ';')
    match rest2 with
    | [] => none
    | _ :: rest3 =>
      let rest4 := rest3.dropWhile jsWs
      if isPreCI ("charset=".data) rest4 then
        let rest5 := rest4.drop 8
        let quoteC (c : Char) : Bool := c == '"' || c == Char.ofNat 39
        let exclQ (c : Char) : Bool := quoteC c || c == '\r' || c == '\n'
        let rest6 :=
          match rest5 with
          | c :: t => if quoteC c then t else rest5
          | [] => []
        let run := rest6.takeWhile (fun c => !exclQ c)
        if run = [] then none else some run
      else none
  else none

/-- One start-position attempt of
`/Content-Type:\s*multipart\/[^;]+;\s*boundary="?([^"\r\n]+)"?/i`. -/
def boundaryAt (s : List Char) : Option (List Char) :=
  if isPreCI ("Content-Type:".data) s then
    let r1 := (s.drop 13).dropWhile jsWs
    if isPreCI ("multipart/".data) r1 then
      let r2 := r1.drop 10
      let seg := r2.takeWhile (fun c => c != ';')
      let r3 := r2.dropWhile (fun c => c != ';')
      if seg = [] then none
      else
        match r3 with
        | [] => none
        | _ :: r4 =>
          let r5 := r4.dropWhile jsWs
          if isPreCI ("boundary=".data) r5 then
            let r6 := r5.drop 9
            let exclB (c : Char) : Bool := c == '"' || c == '\r' || c == '\n'
            let r7 :=
              match r6 with
              | c :: t => if c == '"' then t else r6
              | [] => []
            let run := r7.takeWhile (fun c => !exclB c)
            if run = [] then none else some run
          else none
    else none
  else none

/-- First multipart boundary declaration in the raw body, trimmed as in
`boundaryMatch[1].trim()`. -/
def findBoundary (rawBody : List Char) : Option (List Char) :=
  (scan1 boundaryAt rawBody).map trimL

/-! ### Transfer-encoding decoders -/

def isHexD (c : Char) : Bool :=
  c.isDigit || ('a' ≤ c && c ≤ 'f') || ('A' ≤ c && c ≤ 'F')

def hexVal (c : Char) : Nat :=
  if c.isDigit then c.toNat - 48
  else if 'a' ≤ c then c.toNat - 87
  else c.toNat - 55

/-- Embeds the global replace `/=([0-9A-F]{2})/gi` → `String.fromCharCode`. -/
def qpHex : List Char → List Char
  | [] => []
  | '=' :: a :: b :: rest =>
    if isHexD a && isHexD b then Char.ofNat (16 * hexVal a + hexVal b) :: qpHex rest
    else '=' :: qpHex (a :: b :: rest)
  | c :: rest => c :: qpHex rest

/-- Embeds `decodeQuotedPrintable`: drop soft line breaks `=\r\n`, then decode
each `=XX` hex escape.  The guarding `if (!str) return ''` is the identity on
the empty list. -/
def qpDecode (l : List Char) : List Char := qpHex (replaceAllL ('=' :: '\r' :: '\n' :: []) [] l)

/-- Value of one base64 alphabet character. -/
def b64Val (c : Char) : Option Nat :=
  if 'A' ≤ c && c ≤ 'Z' then some (c.toNat - 65)
  else if 'a' ≤ c && c ≤ 'z' then some (c.toNat - 71)
  else if c.isDigit then some (c.toNat + 4)
  else if c == '+' then some 62
  else if c == '/' then some 63
  else none

/-- Base64 sextets to bytes (lenient, as `Buffer.from(str, 'base64')`). -/
def b64Groups : List Nat → List Nat
  | a :: b :: c :: d :: rest =>
    (a * 4 + b / 16) :: ((b % 16) * 16 + c / 4) :: ((c % 4) * 64 + d) :: b64Groups rest
  | [a, b] => [a * 4 + b / 16]
  | [a, b, c] => [a * 4 + b / 16, (b % 16) * 16 + c / 4]
  | _ => []

/-- Latin-1: each byte is the code point (`buffer.toString('latin1')`). -/
def latin1Decode (bs : List Nat) : List Char := bs.map Char.ofNat

/-- Unicode replacement character used for invalid UTF-8 sequences. -/
def uRepl : Char := Char.ofNat 0xFFFD

/-- Best-effort UTF-8 byte decoding (`buffer.toString('utf-8')`); invalid
sequences yield the replacement character. -/
def utf8Decode : List Nat → List Char
  | [] => []
  | b :: rest =>
    if b < 128 then Char.ofNat b :: utf8Decode rest
    else if 192 ≤ b && b < 224 then
      match rest with
      | b2 :: rest2 =>
        if 128 ≤ b2 && b2 < 192 then
          let cp := (b - 192) * 64 + (b2 - 128)
          (if cp < 128 then uRepl else Char.ofNat cp) :: utf8Decode rest2
        else uRepl :: utf8Decode (b2 :: rest2)
      | [] => [uRepl]
    else if 224 ≤ b && b < 240 then
      match rest with
      | b2 :: b3 :: rest3 =>
        if (128 ≤ b2 && b2 < 192) && (128 ≤ b3 && b3 < 192) then
          let cp := (b - 224) * 4096 + (b2 - 128) * 64 + (b3 - 128)
          (if cp < 2048 || (55296 ≤ cp && cp ≤ 57343) then uRepl else Char.ofNat cp) ::
            utf8Decode rest3
        else uRepl :: utf8Decode (b2 :: b3 :: rest3)
      | _ => [uRepl]
    else if 240 ≤ b && b < 248 then
      match rest with
      | b2 :: b3 :: b4 :: rest4 =>
        if (128 ≤ b2 && b2 < 192) && (128 ≤ b3 && b3 < 192) && (128 ≤ b4 && b4 < 192) then
          let cp := (b - 240) * 262144 + (b2 - 128) * 4096 + (b3 - 128) * 64 + (b4 - 128)
          (if cp < 65536 || 1114111 < cp then uRepl else Char.ofNat cp) :: utf8Decode rest4
        else uRepl :: utf8Decode (b2 :: b3 :: b4 :: rest4)
      | _ => [uRepl]
    else uRepl :: utf8Decode rest

/-- Embeds `decodeBase64`: strip `\s`, lenient base64 decode, then decode per
charset (`utf-8`/`utf8`, `iso-8859-1`/`latin1`, default utf-8).  The
`try/catch` never fires since the lenient decoder is total. -/
def decodeBase64L (l : List Char) (charset : List Char) : List Char :=
  let clean := l.filter (fun c => !jsWs c)
  let vals := (clean.filter (fun c => (b64Val c).isSome)).map (fun c => (b64Val c).getD 0)
  let bytes := b64Groups vals
  let cl := charset.map lcChar
  if cl = "utf-8".data || cl = "utf8".data then utf8Decode bytes
  else if cl = "iso-8859-1".data || cl = "latin1".data then latin1Decode bytes
  else utf8Decode bytes

/-! ### HTML stripping and fallback pipelines of `parseMIMEBody` -/

theorem dropWhileLen {α : Type} (p : α → Bool) (l : List α) :
    (l.dropWhile p).length ≤ l.length := by
  induction l with
  | nil => simp [List.dropWhile]
  | cons c cs ih =>
    by_cases h : p c <;> simp [List.dropWhile, h] <;> omega

/-- Embeds the global replaces of `<style …>…</style>` and
`<script …>…</script>` blocks (patterns `<style[^>]*>` etc., case-insensitive,
with a lazy body): after the case-insensitive opening tag name, `[^>]*` runs to
the next `>`, and the lazy body extends to the first case-insensitive closing
tag; without a closing tag there is no match. -/
def stripBlocksF (openT closeT : List Char) : Nat → List Char → List Char
  | 0, l => l
  | _ + 1, [] => []
  | fuel + 1, c :: cs =>
    if isPreCI openT (c :: cs) then
      match List.dropWhile (fun x => x != '>') ((c :: cs).drop openT.length) with
      | '>' :: rest3 =>
        match idxOfCI closeT rest3 with
        | some i => stripBlocksF openT closeT fuel (rest3.drop (i + closeT.length))
        | none => c :: stripBlocksF openT closeT fuel cs
      | _ => c :: stripBlocksF openT closeT fuel cs
    else c :: stripBlocksF openT closeT fuel cs

def stripBlocks (openT closeT l : List Char) : List Char :=
  stripBlocksF openT closeT l.length l

/-- Embeds the global replace of `<[^>]+>` by a single space. -/
def stripTagsF : Nat → List Char → List Char
  | 0, l => l
  | _ + 1, [] => []
  | fuel + 1, '<' :: cs =>
    match List.dropWhile (fun x => x != '>') cs with
    | '>' :: rest2 =>
      if cs.takeWhile (fun x => x != '>') ≠ [] then ' ' :: stripTagsF fuel rest2
      else '<' :: stripTagsF fuel cs
    | _ => '<' :: stripTagsF fuel cs
  | fuel + 1, c :: cs => c :: stripTagsF fuel cs

def stripTags (l : List Char) : List Char := stripTagsF l.length l

/-- Embeds the global replace of `\s+` by a single space. -/
def collapseWsF : Nat → List Char → List Char
  | 0, l => l
  | _ + 1, [] => []
  | fuel + 1, c :: cs =>
    if jsWs c then ' ' :: collapseWsF fuel (cs.dropWhile jsWs)
    else c :: collapseWsF fuel cs

def collapseWs (l : List Char) : List Char := collapseWsF l.length l

/-- The fixed entity table decoded by the html fallback (case-sensitive). -/
def entityDecode (l : List Char) : List Char :=
  replaceAllL ("&quot;".data) ['"']
    (replaceAllL ("&gt;".data) ['>']
      (replaceAllL ("&lt;".data) ['<']
        (replaceAllL ("&amp;".data) ['&']
          (replaceAllL ("&nbsp;".data) [' '] l))))

/-- Whole html fallback chain of `parseMIMEBody`, in source order: strip
`<style>` blocks, strip `<script>` blocks, tags to spaces, entity table,
whitespace collapse, trim. -/
def htmlPipeline (h : List Char) : List Char :=
  trimL (collapseWs (entityDecode (stripTags
    (stripBlocks ("<script".data) ("</script>".data)
      (stripBlocks ("<style".data) ("</style>".data) h)))))

/-- Embeds the global case-insensitive replace of `NAME[^\r\n]+` followed by a
literal CRLF with the empty string: the known header-line removal of the
last-resort fallback.  `[^\r\n]+` must be non-empty. -/
def stripHdrLinesF (nameL : List Char) : Nat → List Char → List Char
  | 0, l => l
  | _ + 1, [] => []
  | fuel + 1, c :: cs =>
    if isPreCI nameL (c :: cs) then
      if ((c :: cs).drop nameL.length).takeWhile (fun x => x != '\r' && x != '\n') ≠ [] then
        match List.dropWhile (fun x => x != '\r' && x != '\n')
            ((c :: cs).drop nameL.length) with
        | '\r' :: '\n' :: rest3 => stripHdrLinesF nameL fuel rest3
        | _ => c :: stripHdrLinesF nameL fuel cs
      else c :: stripHdrLinesF nameL fuel cs
    else c :: stripHdrLinesF nameL fuel cs

def stripHdrLines (nameL l : List Char) : List Char := stripHdrLinesF nameL l.length l

/-- Character class of lower/upper hex digits and the dash, with the `i` flag. -/
def isBMChar (c : Char) : Bool :=
  c.isDigit || ('a' ≤ c && c ≤ 'f') || ('A' ≤ c && c ≤ 'F') || c == '-'

/-- Embeds the global case-insensitive replace of `--` followed by one or more
`isBMChar` characters with the empty string (the boundary-marker-looking-line
removal of the fallback). -/
def stripBMarksF : Nat → List Char → List Char
  | 0, l => l
  | _ + 1, [] => []
  | fuel + 1, '-' :: '-' :: c :: cs =>
    if isBMChar c then stripBMarksF fuel ((c :: cs).dropWhile isBMChar)
    else '-' :: stripBMarksF fuel ('-' :: c :: cs)
  | fuel + 1, c :: cs => c :: stripBMarksF fuel cs

def stripBMarks (l : List Char) : List Char := stripBMarksF l.length l

/-- Last-resort fallback of `parseMIMEBody`, in source order: remove
`Content-Type:` / `Content-Transfer-Encoding:` / `Content-Disposition:` lines
and boundary-marker-looking runs, collapse `\r\n\r\n` to `\n`, trim. -/
def fallbackPipe (raw : List Char) : List Char :=
  trimL (replaceAllL ("\r\n\r\n".data) ['\n']
    (stripBMarks
      (stripHdrLines ("Content-Disposition:".data)
        (stripHdrLines ("Content-Transfer-Encoding:".data)
          (stripHdrLines ("Content-Type:".data) raw)))))

/-! ### Per-part processing and `parseMIMEBody` -/

/-- Content type of one multipart part: matched value trimmed and lower-cased,
defaulting to the empty string. -/
def partCT (part : List Char) : List Char :=
  match findCTVal part with
  | some v => (trimL v).map lcChar
  | none => []

/-- Charset of a part, defaulting to `utf-8`. -/
def partCharset (part : List Char) : List Char :=
  match scan1 charsetAt part with
  | some v => trimL v
  | none => "utf-8".data

/-- Transfer encoding of a part, defaulting to `7bit`. -/
def partEnc (part : List Char) : List Char :=
  match findEncVal part with
  | some v => (trimL v).map lcChar
  | none => "7bit".data

/-- Body of a part: everything after the first `\r\n\r\n` when its index is
positive, otherwise the whole part (`bodyStart > 0 ? … : part`). -/
def partBodyOf (part : List Char) : List Char :=
  match idxOf ("\r\n\r\n".data) part with
  | some i => if 0 < i then part.drop (i + 4) else part
  | none => part

/-- Decode one part's body per its transfer encoding (`base64`,
`quoted-printable`, or pass-through). -/
def decodePart (part : List Char) : List Char :=
  let enc := partEnc part
  let pb := partBodyOf part
  if enc = "base64".data then decodeBase64L pb (partCharset part)
  else if enc = "quoted-printable".data then qpDecode pb
  else pb

/-- One step of the multipart accumulation loop: skip `--`/empty parts, store
the first non-falsy `text/plain` content, else the first non-falsy `text/html`
content (the `else if` of the source). -/
def collectStep (acc : List Char × List Char) (part : List Char) :
    List Char × List Char :=
  if trimL part = "--".data || trimL part = [] then acc
  else
    let ct := partCT part
    let dec := decodePart part
    if containsSub ("text/plain".data) ct && acc.1 = [] then (dec, acc.2)
    else if containsSub ("text/html".data) ct && acc.2 = [] then (acc.1, dec)
    else acc

/-- The multipart loop over all boundary-split parts. -/
def collectParts (parts : List (List Char)) : List Char × List Char :=
  parts.foldl collectStep ([], [])

/-- Content type of a single-part message (default `text/plain`). -/
def singleCT (raw : List Char) : List Char :=
  match findCTVal raw with
  | some v => (trimL v).map lcChar
  | none => "text/plain".data

/-- Embeds `parseMIMEBody` from `route.ts` (lines 150–252). -/
def parseMIMEBodyL (rawBody : List Char) : List Char :=
  if rawBody = [] then []
  else
    let tcHc :=
      match findBoundary rawBody with
      | some boundary =>
        let parts := splitOnL ('-' :: '-' :: boundary) rawBody
        collectParts parts
      | none =>
        let ct := singleCT rawBody
        let body := decodePart rawBody
        if containsSub ("text/html".data) ct then (([] : List Char), body)
        else (body, ([] : List Char))
    if tcHc.1 ≠ [] then trimL tcHc.1
    else if tcHc.2 ≠ [] then htmlPipeline tcHc.2
    else fallbackPipe rawBody

/-- String-level wrapper for `parseMIMEBody`. -/
def parseMIMEBody (rawBody : String) : String := ⟨parseMIMEBodyL rawBody.data⟩

/-! ### Header extraction and `parseEmailFromRaw` -/

/-- Drop one trailing carriage return (the `\r` left on a line when the
multiline regex anchors split at `\n`; it can never be captured by `.+`). -/
def stripCR (l : List Char) : List Char :=
  match h : l.reverse with
  | '\r' :: r => r.reverse
  | _ => l

/-- Lines of a header block as seen by a multiline `^…$` regex. -/
def headerLines (headers : List Char) : List (List Char) :=
  (splitOnL ['\n'] headers).map stripCR

/-- Embeds the `getHeader` closure of `parseEmailFromRaw`
(`new RegExp('^' + name + ':\\s*(.+)$', 'im')`): the first line starting
(case-insensitively) with `name:` and having a non-empty remainder yields that
remainder trimmed; otherwise the empty string. -/
def getHeaderL (headers nameL : List Char) : List Char :=
  go (headerLines headers)
where
  go : List (List Char) → List Char
  | [] => []
  | ln :: rest =>
    if isPreCI (nameL ++ [':']) ln && ln.drop (nameL.length + 1) ≠ [] then
      trimL (ln.drop (nameL.length + 1))
    else go rest

/-- Header block of a raw message: everything before the first `\r\n\r\n` when
its index is positive, otherwise the whole message. -/
def rawHeadersOf (raw : List Char) : List Char :=
  match idxOf ("\r\n\r\n".data) raw with
  | some i => if 0 < i then raw.take i else raw
  | none => raw

/-- Body of a raw message: everything after the first `\r\n\r\n` when its
index is positive, otherwise the empty string. -/
def rawBodyOf (raw : List Char) : List Char :=
  match idxOf ("\r\n\r\n".data) raw with
  | some i => if 0 < i then raw.drop (i + 4) else []
  | none => []

/-- Output record of the fetch (the `Email` interface of `route.ts`).  Only
the fields constrained by the verified properties are modelled; the remaining
fields (`id`, `from`, `fromEmail`, `subject`) are produced by independent
header parsing not referenced by any theorem below. -/
structure Email where
  date : String
  body : String
  read : Bool
  starred : Bool
deriving DecidableEq, Repr

/-- First 5000 characters (`substring(0, 5000)`). -/
def take5000 (s : List Char) : List Char := s.take 5000

/-- The record built by the `try` block of `parseEmailFromRaw` (lines
720–751): split headers from body at the first `\r\n\r\n`, read the `Date`
header (JS `||` defaulting to `new Date().toISOString()`, passed in as
`nowIso`), decode the body through `parseMIMEBody`, truncate to 5000
characters and default the empty string to `"(No content)"`. -/
def parseEmailFromRawRec (nowIso : String) (raw : String) : Email :=
  let headers := rawHeadersOf raw.data
  let rawBody := rawBodyOf raw.data
  let dateH := getHeaderL headers ("Date".data)
  let parsedBody := parseMIMEBodyL rawBody
  { date := if dateH = [] then nowIso else ⟨dateH⟩
    body := if take5000 parsedBody = [] then "(No content)" else ⟨take5000 parsedBody⟩
    read := true
    starred := false }

/-- Embeds `parseEmailFromRaw` itself: the surrounding `try/catch` can only
return `null` on a thrown exception, which the total model never produces. -/
def parseEmailFromRaw (nowIso : String) (raw : String) : Option Email :=
  some (parseEmailFromRawRec nowIso raw)

/-! ### The POP3 session state machine (`fetchPOP3Emails`, lines 489–822) -/

/-- Decimal digits to a natural number (`parseInt` on an all-digit match). -/
def digitsToNat (ds : List Char) : Nat :=
  ds.foldl (fun a c => 10 * a + (c.toNat - 48)) 0

/-- Embeds the anchored LIST-entry regex `^(\d+)\s+(\d+)$`: digits, at least
one whitespace character, digits, end of line. -/
def parseListEntry (line : String) : Option (Nat × Nat) :=
  let l := line.data
  let d1 := l.takeWhile Char.isDigit
  let r1 := l.dropWhile Char.isDigit
  let ws := r1.takeWhile jsWs
  let r2 := r1.dropWhile jsWs
  let d2 := r2.takeWhile Char.isDigit
  let r3 := r2.dropWhile Char.isDigit
  if d1 ≠ [] && ws ≠ [] && d2 ≠ [] && r3 = [] then
    some (digitsToNat d1, digitsToNat d2)
  else none

/-- The `currentStep` values of the POP3 session. -/
inductive Step where
  | greeting | stls | user | pass | list | retr
deriving DecidableEq, Repr

/-- The `encryption` configuration value (`'ssl' | 'tls' | 'none'`). -/
inductive Encryption where
  | ssl | tls | noneEnc
deriving DecidableEq, Repr

/-- Mailbox configuration (`POP3EmailConfig`). -/
structure POP3Config where
  host : String
  port : Nat
  username : String
  password : String
  encryption : Encryption
deriving DecidableEq, Repr

/-- The object a session's promise resolves with.  `emails = none` models the
resolutions that omit the `emails` key entirely. -/
structure FetchResult where
  success : Bool
  emails : Option (List Email)
  error : Option String
deriving DecidableEq, Repr

/-- Mutable state of one POP3 session, as captured by the closure variables of
`fetchPOP3Emails`.  `tlsUpgraded` records whether the socket handle has been
replaced by the TLS-upgraded handle. -/
structure SessionState where
  currentStep : Step
  emailList : List (Nat × Nat)
  currentEmailData : String
  currentEmailIndex : Nat
  emails : List Email
  resolved : Bool
  result : Option FetchResult
  tlsUpgraded : Bool
deriving DecidableEq, Repr

/-- Observable protocol events: a command written to the socket (the flag
tells whether the write goes over the TLS-upgraded handle) or a received
line consumed by `processLine`. -/
inductive Event where
  | sent : Bool → String → Event
  | recvd : String → Event
deriving DecidableEq, Repr

/-- `emailList.slice(-10)`: the last ten entries (or all when fewer). -/
def lastTen (l : List (Nat × Nat)) : List (Nat × Nat) := l.drop (l.length - 10)

/-- Dot-unstuffing of one received body line
(`line.startsWith('..') ? line.substring(1) : line`). -/
def unstuff (line : String) : String :=
  if startsWith ".." line then ⟨line.data.drop 1⟩ else line

/-- Embeds `processLine` (lines 598–718).  Returns the successor state and the
commands written while handling this line.  Two deliberate modelling choices:
the TLS upgrade started on `+OK` to `STLS` is modelled as succeeding
synchronously (the `tls.connect` callback), and the deferred
`setTimeout(…, 100/500)` resolutions after `QUIT` are modelled as immediate. -/
def processLine (cfg : POP3Config) (nowIso : String) (st : SessionState)
    (line : String) : SessionState × List Event :=
  match st.currentStep with
  | .greeting =>
    if startsWith "+OK" line then
      if cfg.encryption = .tls then
        ({ st with currentStep := .stls }, [.sent st.tlsUpgraded "STLS"])
      else
        ({ st with currentStep := .user },
         [.sent st.tlsUpgraded ("USER " ++ cfg.username)])
    else
      ({ st with resolved := true,
                 result := some ⟨false, none, some ("Server greeting failed: " ++ line)⟩ }, [])
  | .stls =>
    if startsWith "+OK" line then
      ({ st with tlsUpgraded := true, currentStep := .user },
       [.sent true ("USER " ++ cfg.username)])
    else
      ({ st with currentStep := .user },
       [.sent st.tlsUpgraded ("USER " ++ cfg.username)])
  | .user =>
    if startsWith "+OK" line then
      ({ st with currentStep := .pass },
       [.sent st.tlsUpgraded ("PASS " ++ cfg.password)])
    else
      ({ st with resolved := true,
                 result := some ⟨false, none, some ("Username rejected: " ++ line)⟩ }, [])
  | .pass =>
    if startsWith "+OK" line then
      ({ st with currentStep := .list }, [.sent st.tlsUpgraded "LIST"])
    else
      ({ st with resolved := true,
                 result := some ⟨false, none,
                   some ("Authentication failed: " ++ line ++
                     ". Check username and password.")⟩ }, [])
  | .list =>
    if line = "." then
      if st.emailList = [] then
        ({ st with resolved := true, result := some ⟨true, some [], none⟩ },
         [.sent st.tlsUpgraded "QUIT"])
      else
        ({ st with currentStep := .retr, currentEmailIndex := 0, currentEmailData := "" },
         [.sent st.tlsUpgraded ("RETR " ++ Nat.repr ((lastTen st.emailList).getD 0 (0, 0)).1)])
    else if startsWith "-ERR" line then
      ({ st with resolved := true,
                 result := some ⟨false, none, some ("LIST failed: " ++ line)⟩ }, [])
    else
      match parseListEntry line with
      | some e => ({ st with emailList := st.emailList ++ [e] }, [])
      | none => (st, [])
  | .retr =>
    if line = "." then
      let emails' :=
        match parseEmailFromRaw nowIso st.currentEmailData with
        | some e => st.emails ++ [e]
        | none => st.emails
      let toFetch := lastTen st.emailList
      let i' := st.currentEmailIndex + 1
      if i' < toFetch.length then
        ({ st with emails := emails', currentEmailIndex := i', currentEmailData := "" },
         [.sent st.tlsUpgraded ("RETR " ++ Nat.repr (toFetch.getD i' (0, 0)).1)])
      else
        ({ st with emails := emails', currentEmailIndex := i', resolved := true,
                   result := some ⟨true, some emails', none⟩ },
         [.sent st.tlsUpgraded "QUIT"])
    else
      ({ st with currentEmailData := st.currentEmailData ++ unstuff line ++ "\r\n" }, [])

/-- Drives `processLine` over a sequence of complete received lines (the
`while (dataBuffer.includes('\r\n'))` loop of `processResponse`), recording
the transcript of received lines and written commands.  After a line whose
handling resolves the session, no further lines are processed
(`if (resolved) return`). -/
def runLines (cfg : POP3Config) (nowIso : String) :
    SessionState → List String → SessionState × List Event
  | st, [] => (st, [])
  | st, l :: ls =>
    let p := processLine cfg nowIso st l
    if p.1.resolved then (p.1, Event.recvd l :: p.2)
    else
      let r := runLines cfg nowIso p.1 ls
      (r.1, Event.recvd l :: (p.2 ++ r.2))

/-- Initial closure state of `fetchPOP3Emails`. -/
def initState : SessionState :=
  { currentStep := .greeting, emailList := [], currentEmailData := "",
    currentEmailIndex := 0, emails := [], resolved := false, result := none,
    tlsUpgraded := false }

/-- Complete event transcript of a session fed the given received lines. -/
def pop3Trace (cfg : POP3Config) (nowIso : String) (lines : List String) :
    List Event :=
  (runLines cfg nowIso initState lines).2

/-- Embeds the `socket.on('close', …)` handler (lines 805–812) and the
identical handler installed on the upgraded TLS socket (lines 559–566): an
unresolved session resolves `success: true` with the emails collected so far. -/
def onClose (st : SessionState) : SessionState :=
  if st.resolved then st
  else { st with resolved := true, result := some ⟨true, some st.emails, none⟩ }

/-- Embeds the 25-second `setTimeout` handler (lines 514–524): an unresolved
session resolves `success: false` with a timeout error. -/
def onTimeout (cfg : POP3Config) (st : SessionState) : SessionState :=
  if st.resolved then st
  else
    { st with
      resolved := true
      result := some ⟨false, none,
        some ("Connection timeout after 25 seconds. Check if " ++ cfg.host ++
          " is correct and accessible.")⟩ }

/-! ### Command-ordering monitor (claim C1) -/

/-- Phases of the ordering monitor: before `USER` is sent, after `USER` but
before its `+OK` is consumed, after that `+OK`, after `PASS` but before its
`+OK`, and after `PASS`'s `+OK`. -/
inductive MPhase where
  | preUser | userSent | userOk | passSent | passOk
deriving DecidableEq, Repr

/-- One monitor transition; `none` is a violation: `PASS` written before a
`+OK` reply was consumed while awaiting `USER`'s response, or `LIST`/`RETR`
written before a `+OK` reply was consumed while awaiting `PASS`'s response. -/
def mstep : MPhase → Event → Option MPhase
  | .preUser, .recvd _ => some .preUser
  | .preUser, .sent _ c =>
    if startsWith "PASS" c || startsWith "LIST" c || startsWith "RETR" c then none
    else if startsWith "USER" c then some .userSent
    else some .preUser
  | .userSent, .recvd l => some (if startsWith "+OK" l then .userOk else .userSent)
  | .userSent, .sent _ c =>
    if startsWith "PASS" c || startsWith "LIST" c || startsWith "RETR" c then none
    else some .userSent
  | .userOk, .recvd _ => some .userOk
  | .userOk, .sent _ c =>
    if startsWith "LIST" c || startsWith "RETR" c then none
    else if startsWith "PASS" c then some .passSent
    else some .userOk
  | .passSent, .recvd l => some (if startsWith "+OK" l then .passOk else .passSent)
  | .passSent, .sent _ c =>
    if startsWith "LIST" c || startsWith "RETR" c then none
    else some .passSent
  | .passOk, _ => some .passOk

/-- Run the monitor over a transcript; a violation anywhere is absorbing. -/
def mrun : Option MPhase → List Event → Option MPhase
  | p, [] => p
  | p, e :: es => mrun (p.bind (fun q => mstep q e)) es

/-- Monitor phase associated with each machine step of an unresolved session. -/
def phaseOf : Step → MPhase
  | .greeting => .preUser
  | .stls => .preUser
  | .user => .userSent
  | .pass => .passSent
  | .list => .passOk
  | .retr => .passOk

theorem mrun_append (p : Option MPhase) (a b : List Event) :
    mrun p (a ++ b) = mrun (mrun p a) b := by
  induction a generalizing p with
  | nil => rfl
  | cons e es ih => exact ih _

theorem sw_self_append (p s : String) : startsWith p (p ++ s) = true := by
  unfold startsWith
  rw [String.data_append]
  induction p.data with
  | nil => rfl
  | cons c cs ih => simp [isPreL, ih]

theorem sw_pass_of_user (u : String) : startsWith "PASS" ("USER " ++ u) = false := rfl

theorem sw_list_of_user (u : String) : startsWith "LIST" ("USER " ++ u) = false := rfl

theorem sw_retr_of_user (u : String) : startsWith "RETR" ("USER " ++ u) = false := rfl

theorem sw_user_of_user (u : String) : startsWith "USER" ("USER " ++ u) = true := by
  have h := sw_self_append "USER" (" " ++ u)
  rw [← String.append_assoc] at h
  exact h

theorem sw_list_of_pass (p : String) : startsWith "LIST" ("PASS " ++ p) = false := rfl

theorem sw_retr_of_pass (p : String) : startsWith "RETR" ("PASS " ++ p) = false := rfl

theorem sw_pass_of_pass (p : String) : startsWith "PASS" ("PASS " ++ p) = true := by
  have h := sw_self_append "PASS" (" " ++ p)
  rw [← String.append_assoc] at h
  exact h

/-- Each `processLine` step preserves the phase abstraction: consuming the
line and emitting the commands moves the monitor from the phase of the old
step to the phase of the new step, never into a violation. -/
theorem processLine_phase (cfg : POP3Config) (nowIso : String) (st : SessionState)
    (line : String) :
    mrun (some (phaseOf st.currentStep))
        (Event.recvd line :: (processLine cfg nowIso st line).2)
      = some (phaseOf (processLine cfg nowIso st line).1.currentStep) := by
  cases hstep : st.currentStep
  case greeting =>
    cases hok : startsWith "+OK" line
    · simp [processLine, hstep, hok, mrun, mstep, phaseOf]
    · by_cases henc : cfg.encryption = Encryption.tls
      · simp only [processLine, hstep, hok, henc, if_true, if_pos]
        simp [mrun, mstep, phaseOf]
        decide
      · simp [processLine, hstep, hok, henc, mrun, mstep, phaseOf,
          sw_pass_of_user, sw_list_of_user, sw_retr_of_user, sw_user_of_user]
  case stls =>
    cases hok : startsWith "+OK" line <;>
      simp [processLine, hstep, hok, mrun, mstep, phaseOf,
        sw_pass_of_user, sw_list_of_user, sw_retr_of_user, sw_user_of_user]
  case user =>
    cases hok : startsWith "+OK" line <;>
      simp [processLine, hstep, hok, mrun, mstep, phaseOf,
        sw_list_of_pass, sw_retr_of_pass, sw_pass_of_pass]
  case pass =>
    cases hok : startsWith "+OK" line <;>
      simp [processLine, hstep, hok, mrun, mstep, phaseOf]
  case list =>
    by_cases hdot : line = "."
    · by_cases hnil : st.emailList = [] <;>
        simp [processLine, hstep, hdot, hnil, mrun, mstep, phaseOf]
    · cases herr : startsWith "-ERR" line
      · cases hm : parseListEntry line <;>
          simp [processLine, hstep, hdot, herr, hm, mrun, mstep, phaseOf]
      · simp [processLine, hstep, hdot, herr, mrun, mstep, phaseOf]
  case retr =>
    by_cases hdot : line = "."
    · by_cases hlt : st.currentEmailIndex + 1 < (lastTen st.emailList).length <;>
        simp [processLine, hstep, hdot, hlt, mrun, mstep, phaseOf]
    · simp [processLine, hstep, hdot, mrun, mstep, phaseOf]

/-- The phase abstraction holds along any run. -/
theorem runLines_phase (cfg : POP3Config) (nowIso : String) :
    ∀ (lines : List String) (st : SessionState),
      mrun (some (phaseOf st.currentStep)) (runLines cfg nowIso st lines).2
        = some (phaseOf (runLines cfg nowIso st lines).1.currentStep)
  | [], _ => rfl
  | l :: ls, st => by
    simp only [runLines]
    by_cases hr : (processLine cfg nowIso st l).1.resolved = true
    · rw [if_pos hr]
      exact processLine_phase cfg nowIso st l
    · rw [if_neg hr]
      have h1 := processLine_phase cfg nowIso st l
      have h2 := runLines_phase cfg nowIso ls (processLine cfg nowIso st l).1
      show mrun (some (phaseOf st.currentStep))
          ((Event.recvd l :: (processLine cfg nowIso st l).2) ++
            (runLines cfg nowIso (processLine cfg nowIso st l).1 ls).2)
        = some (phaseOf (runLines cfg nowIso (processLine cfg nowIso st l).1 ls).1.currentStep)
      rw [mrun_append, h1, h2]

/-- C1 (confirmed): for every POP3 session transcript produced by the state
machine — any configuration and any sequence of received lines — the ordering
monitor accepts: a `PASS` command is written only after a `+OK` reply has been
consumed while awaiting `USER`'s response, and `LIST` and `RETR` commands are
written only after a `+OK` reply has been consumed while awaiting `PASS`'s
response; commands are emitted strictly in this sequential discipline, never
ahead of the required replies. -/
theorem pop3_commands_strictly_ordered (cfg : POP3Config) (nowIso : String)
    (lines : List String) :
    (mrun (some .preUser) (pop3Trace cfg nowIso lines)).isSome = true := by
  have h := runLines_phase cfg nowIso lines initState
  unfold pop3Trace
  have hinit : (some MPhase.preUser) = some (phaseOf initState.currentStep) := rfl
  rw [hinit, h]
  rfl

/-! ### Claims C2, C3, C5, C7, C10: step-level properties -/

/-- Event is carried by the TLS-upgraded handle whenever it is a write. -/
def evOverTLS (e : Event) : Prop :=
  match e with
  | .sent b _ => b = true
  | .recvd _ => True

theorem processLine_tls (cfg : POP3Config) (nowIso : String) (st : SessionState)
    (line : String) (h : st.tlsUpgraded = true) :
    (processLine cfg nowIso st line).1.tlsUpgraded = true
    ∧ ∀ e ∈ (processLine cfg nowIso st line).2, evOverTLS e := by
  cases hstep : st.currentStep
  case greeting =>
    cases hok : startsWith "+OK" line
    · simp [processLine, hstep, hok, h, evOverTLS]
    · by_cases henc : cfg.encryption = Encryption.tls <;>
        simp [processLine, hstep, hok, henc, h, evOverTLS]
  case stls =>
    cases hok : startsWith "+OK" line <;>
      simp [processLine, hstep, hok, h, evOverTLS]
  case user =>
    cases hok : startsWith "+OK" line <;>
      simp [processLine, hstep, hok, h, evOverTLS]
  case pass =>
    cases hok : startsWith "+OK" line <;>
      simp [processLine, hstep, hok, h, evOverTLS]
  case list =>
    by_cases hdot : line = "."
    · by_cases hnil : st.emailList = [] <;>
        simp [processLine, hstep, hdot, hnil, h, evOverTLS]
    · cases herr : startsWith "-ERR" line
      · cases hm : parseListEntry line <;>
          simp [processLine, hstep, hdot, herr, hm, h, evOverTLS]
      · simp [processLine, hstep, hdot, herr, h, evOverTLS]
  case retr =>
    by_cases hdot : line = "."
    · by_cases hlt : st.currentEmailIndex + 1 < (lastTen st.emailList).length <;>
        simp [processLine, hstep, hdot, hlt, h, evOverTLS]
    · simp [processLine, hstep, hdot, h, evOverTLS]

/-- Once the handle is upgraded every later write goes over the TLS handle. -/
theorem runLines_tls (cfg : POP3Config) (nowIso : String) :
    ∀ (lines : List String) (st : SessionState), st.tlsUpgraded = true →
      ∀ e ∈ (runLines cfg nowIso st lines).2, evOverTLS e
  | [], _, _ => by intro e he; simp [runLines] at he
  | l :: ls, st, h => by
    intro e he
    have hp := processLine_tls cfg nowIso st l h
    simp only [runLines] at he
    by_cases hr : (processLine cfg nowIso st l).1.resolved = true
    · rw [if_pos hr] at he
      rcases List.mem_cons.mp he with rfl | he2
      · trivial
      · exact hp.2 e he2
    · rw [if_neg hr] at he
      rcases List.mem_cons.mp he with rfl | he2
      · trivial
      · rcases List.mem_append.mp he2 with he3 | he3
        · exact hp.2 e he3
        · exact runLines_tls cfg nowIso ls (processLine cfg nowIso st l).1 hp.1 e he3

/-- C3 (confirmed): in STARTTLS mode, a non-`+OK` (in particular `-ERR`)
reply to `STLS` does not abort the session — it proceeds to the `user` step,
still unresolved, and immediately writes `USER` over the existing
(un-upgraded) handle; a `+OK` reply upgrades the handle and writes `USER` over
the TLS handle, and every subsequent write of the session then goes over the
TLS handle.  (The TLS handshake callback is modelled as succeeding
synchronously.) -/
theorem stls_fallback_and_upgrade (cfg : POP3Config) (nowIso : String)
    (st : SessionState) (line : String) (hstep : st.currentStep = .stls) :
    (startsWith "+OK" line = false →
      (processLine cfg nowIso st line).1.currentStep = .user
      ∧ (processLine cfg nowIso st line).1.resolved = st.resolved
      ∧ (processLine cfg nowIso st line).1.tlsUpgraded = st.tlsUpgraded
      ∧ (processLine cfg nowIso st line).2
          = [.sent st.tlsUpgraded ("USER " ++ cfg.username)])
    ∧ (startsWith "+OK" line = true →
      (processLine cfg nowIso st line).1.currentStep = .user
      ∧ (processLine cfg nowIso st line).1.resolved = st.resolved
      ∧ (processLine cfg nowIso st line).1.tlsUpgraded = true
      ∧ (processLine cfg nowIso st line).2 = [.sent true ("USER " ++ cfg.username)])
    ∧ (∀ (st' : SessionState) (lines' : List String), st'.tlsUpgraded = true →
        ∀ e ∈ (runLines cfg nowIso st' lines').2, evOverTLS e) := by
  refine ⟨?_, ?_, ?_⟩
  · intro hok
    simp [processLine, hstep, hok]
  · intro hok
    simp [processLine, hstep, hok]
  · intro st' lines' h
    exact runLines_tls cfg nowIso lines' st' h

/-- Witness for C3 at a concrete STARTTLS session state. -/
theorem stls_fallback_and_upgrade_witness :
    (SessionState.mk .stls [] "" 0 [] false none false).currentStep = .stls
    ∧ (startsWith "+OK" "-ERR not supported" = false →
        (processLine ⟨"h", 110, "u", "p", .tls⟩ "now"
            (SessionState.mk .stls [] "" 0 [] false none false)
            "-ERR not supported").1.currentStep = .user
        ∧ (processLine ⟨"h", 110, "u", "p", .tls⟩ "now"
            (SessionState.mk .stls [] "" 0 [] false none false)
            "-ERR not supported").1.resolved
            = (SessionState.mk .stls [] "" 0 [] false none false).resolved
        ∧ (processLine ⟨"h", 110, "u", "p", .tls⟩ "now"
            (SessionState.mk .stls [] "" 0 [] false none false)
            "-ERR not supported").1.tlsUpgraded
            = (SessionState.mk .stls [] "" 0 [] false none false).tlsUpgraded
        ∧ (processLine ⟨"h", 110, "u", "p", .tls⟩ "now"
            (SessionState.mk .stls [] "" 0 [] false none false)
            "-ERR not supported").2
            = [.sent (SessionState.mk .stls [] "" 0 [] false none false).tlsUpgraded
                ("USER " ++ (POP3Config.mk "h" 110 "u" "p" .tls).username)])
    ∧ (startsWith "+OK" "-ERR not supported" = true →
        (processLine ⟨"h", 110, "u", "p", .tls⟩ "now"
            (SessionState.mk .stls [] "" 0 [] false none false)
            "-ERR not supported").1.currentStep = .user
        ∧ (processLine ⟨"h", 110, "u", "p", .tls⟩ "now"
            (SessionState.mk .stls [] "" 0 [] false none false)
            "-ERR not supported").1.resolved
            = (SessionState.mk .stls [] "" 0 [] false none false).resolved
        ∧ (processLine ⟨"h", 110, "u", "p", .tls⟩ "now"
            (SessionState.mk .stls [] "" 0 [] false none false)
            "-ERR not supported").1.tlsUpgraded = true
        ∧ (processLine ⟨"h", 110, "u", "p", .tls⟩ "now"
            (SessionState.mk .stls [] "" 0 [] false none false)
            "-ERR not supported").2
            = [.sent true ("USER " ++ (POP3Config.mk "h" 110 "u" "p" .tls).username)])
    ∧ (∀ (st' : SessionState) (lines' : List String), st'.tlsUpgraded = true →
        ∀ e ∈ (runLines ⟨"h", 110, "u", "p", .tls⟩ "now" st' lines').2, evOverTLS e) :=
  ⟨rfl, stls_fallback_and_upgrade ⟨"h", 110, "u", "p", .tls⟩ "now"
    (SessionState.mk .stls [] "" 0 [] false none false) "-ERR not supported" rfl⟩

/-- C2 (counterexample): the received body line `..` is unstuffed to the
single dot `.` and appended, so after it the accumulated block is `.\r\n`,
whose CRLF-split lines contain the line consisting of exactly `.` —
contradicting the claim that no such line ever appears in the accumulated
decoded block. -/
theorem dot_line_in_block_counterexample :
    (processLine ⟨"h", 110, "u", "p", .noneEnc⟩ "now"
        (SessionState.mk .retr [(1, 100)] "" 0 [] false none false) "..").1.currentEmailData
      = ".\r\n"
    ∧ ".".data ∈ splitOnL ("\r\n".data)
        ((processLine ⟨"h", 110, "u", "p", .noneEnc⟩ "now"
          (SessionState.mk .retr [(1, 100)] "" 0 [] false none false)
          "..").1.currentEmailData).data := by
  constructor
  · rfl
  · decide

/-- C2 (amended): in the retrieving step every received line other than the
terminator `.` is appended to the raw block after dot-unstuffing — a line
beginning with `..` loses exactly one leading dot, so `..Example` contributes
`.Example` — and a received line equal to exactly `.` is never appended: it
terminates accumulation (the block is left unchanged or reset for the next
message).  A line equal to `.` can still appear inside the block, namely as
the unstuffing of a received `..`. -/
theorem dot_unstuffing_amended (cfg : POP3Config) (nowIso : String)
    (st : SessionState) (line : String) (hstep : st.currentStep = .retr) :
    (line ≠ "." →
      (processLine cfg nowIso st line).1.currentEmailData
        = st.currentEmailData ++ unstuff line ++ "\r\n")
    ∧ (line = "." →
      (processLine cfg nowIso st line).1.currentEmailData = ""
      ∨ (processLine cfg nowIso st line).1.currentEmailData = st.currentEmailData)
    ∧ unstuff "..Example" = ".Example"
    ∧ unstuff ".." = "."
    ∧ unstuff "body line" = "body line" := by
  refine ⟨?_, ?_, rfl, rfl, rfl⟩
  · intro hline
    simp [processLine, hstep, hline]
  · intro hline
    subst hline
    by_cases hlt : st.currentEmailIndex + 1 < (lastTen st.emailList).length
    · left; simp [processLine, hstep, hlt]
    · right; simp [processLine, hstep, hlt]

/-- Witness for the amended C2 at a concrete retrieving state and line. -/
theorem dot_unstuffing_amended_witness :
    (SessionState.mk .retr [(1, 100)] "" 0 [] false none false).currentStep = .retr
    ∧ (("..Example" : String) ≠ "." →
      (processLine ⟨"h", 110, "u", "p", .noneEnc⟩ "now"
          (SessionState.mk .retr [(1, 100)] "" 0 [] false none false)
          "..Example").1.currentEmailData
        = (SessionState.mk .retr [(1, 100)] "" 0 [] false none false).currentEmailData
            ++ unstuff "..Example" ++ "\r\n")
    ∧ (("..Example" : String) = "." →
      (processLine ⟨"h", 110, "u", "p", .noneEnc⟩ "now"
          (SessionState.mk .retr [(1, 100)] "" 0 [] false none false)
          "..Example").1.currentEmailData = ""
      ∨ (processLine ⟨"h", 110, "u", "p", .noneEnc⟩ "now"
          (SessionState.mk .retr [(1, 100)] "" 0 [] false none false)
          "..Example").1.currentEmailData
          = (SessionState.mk .retr [(1, 100)] "" 0 [] false none false).currentEmailData)
    ∧ unstuff "..Example" = ".Example"
    ∧ unstuff ".." = "."
    ∧ unstuff "body line" = "body line" :=
  ⟨rfl, dot_unstuffing_amended ⟨"h", 110, "u", "p", .noneEnc⟩ "now"
    (SessionState.mk .retr [(1, 100)] "" 0 [] false none false) "..Example" rfl⟩

/-- C5 (confirmed): a LIST terminator received with an empty accumulated list
resolves the session immediately as a success with the literal empty email
list (and a `QUIT` is written), not an error. -/
theorem empty_list_success (cfg : POP3Config) (nowIso : String)
    (st : SessionState) (hstep : st.currentStep = .list)
    (hnil : st.emailList = []) :
    (processLine cfg nowIso st ".").1.resolved = true
    ∧ (processLine cfg nowIso st ".").1.result = some ⟨true, some [], none⟩
    ∧ (processLine cfg nowIso st ".").2 = [.sent st.tlsUpgraded "QUIT"] := by
  refine ⟨?_, ?_, ?_⟩ <;> simp [processLine, hstep, hnil]

/-- Witness for C5 at a concrete listing state. -/
theorem empty_list_success_witness :
    (SessionState.mk .list [] "" 0 [] false none false).currentStep = .list
    ∧ (SessionState.mk .list [] "" 0 [] false none false).emailList = []
    ∧ ((processLine ⟨"h", 110, "u", "p", .noneEnc⟩ "now"
        (SessionState.mk .list [] "" 0 [] false none false) ".").1.resolved = true
      ∧ (processLine ⟨"h", 110, "u", "p", .noneEnc⟩ "now"
          (SessionState.mk .list [] "" 0 [] false none false) ".").1.result
          = some ⟨true, some [], none⟩
      ∧ (processLine ⟨"h", 110, "u", "p", .noneEnc⟩ "now"
          (SessionState.mk .list [] "" 0 [] false none false) ".").2
          = [.sent (SessionState.mk .list [] "" 0 [] false none false).tlsUpgraded "QUIT"]) :=
  ⟨rfl, rfl, empty_list_success ⟨"h", 110, "u", "p", .noneEnc⟩ "now"
    (SessionState.mk .list [] "" 0 [] false none false) rfl rfl⟩

/-- C7 (counterexample): a stream close before any terminal state — here
directly after connecting, with the session still in the greeting step and
unresolved — resolves the fetch with `success := true` (and the empty email
list), not with `success := false`, contradicting the claim. -/
theorem premature_close_success_counterexample :
    initState.resolved = false
    ∧ initState.currentStep = .greeting
    ∧ (onClose initState).result = some ⟨true, some [], none⟩ := by
  refine ⟨rfl, rfl, ?_⟩
  decide

/-- C7 (amended): a premature stream close of an unresolved session resolves
it with `success := true` and the emails collected so far; no ProtocolError
classification is produced by the close handler. -/
theorem premature_close_amended (st : SessionState) (h : st.resolved = false) :
    (onClose st).resolved = true
    ∧ (onClose st).result = some ⟨true, some st.emails, none⟩ := by
  simp [onClose, h]

/-- Witness for the amended C7 at the initial state. -/
theorem premature_close_amended_witness :
    initState.resolved = false
    ∧ ((onClose initState).resolved = true
      ∧ (onClose initState).result = some ⟨true, some initState.emails, none⟩) :=
  ⟨rfl, premature_close_amended initState rfl⟩

/-- C10 (confirmed): in the retrieving step every received line other than the
terminator `.` — in particular a status line beginning with `-ERR` (which is
never equal to `.`) — is appended to the raw block after dot-unstuffing; it
never resolves the session and never changes the step or result, so after a
failed `RETR` the session keeps accumulating until an external event fires;
the 25-second timeout handler then resolves it with `success := false`. -/
theorem retr_err_line_accumulated (cfg : POP3Config) (nowIso : String)
    (st : SessionState) (line : String) (hstep : st.currentStep = .retr)
    (hline : line ≠ ".") :
    (processLine cfg nowIso st line).1.currentStep = .retr
    ∧ (processLine cfg nowIso st line).1.resolved = st.resolved
    ∧ (processLine cfg nowIso st line).1.result = st.result
    ∧ (processLine cfg nowIso st line).2 = []
    ∧ (processLine cfg nowIso st line).1.currentEmailData
        = st.currentEmailData ++ unstuff line ++ "\r\n"
    ∧ (∀ l : String, startsWith "-ERR" l = true → l ≠ ".")
    ∧ (st.resolved = false →
        (onTimeout cfg (processLine cfg nowIso st line).1).resolved = true
        ∧ ((onTimeout cfg (processLine cfg nowIso st line).1).result.map
            FetchResult.success) = some false) := by
  refine ⟨?_, ?_, ?_, ?_, ?_, ?_, ?_⟩
  · simp [processLine, hstep, hline]
  · simp [processLine, hstep, hline]
  · simp [processLine, hstep, hline]
  · simp [processLine, hstep, hline]
  · simp [processLine, hstep, hline]
  · intro l hl hdot
    subst hdot
    exact absurd hl (by decide)
  · intro hres
    have h1 : (processLine cfg nowIso st line).1.resolved = false := by
      simp [processLine, hstep, hline, hres]
    constructor <;> simp [onTimeout, h1]

/-- Witness for C10 at a concrete retrieving state fed a `-ERR` reply. -/
theorem retr_err_line_accumulated_witness :
    (SessionState.mk .retr [(1, 100)] "" 0 [] false none false).currentStep = .retr
    ∧ ("-ERR no such message" : String) ≠ "."
    ∧ ((processLine ⟨"h", 110, "u", "p", .noneEnc⟩ "now"
          (SessionState.mk .retr [(1, 100)] "" 0 [] false none false)
          "-ERR no such message").1.currentStep = .retr
      ∧ (processLine ⟨"h", 110, "u", "p", .noneEnc⟩ "now"
          (SessionState.mk .retr [(1, 100)] "" 0 [] false none false)
          "-ERR no such message").1.resolved
          = (SessionState.mk .retr [(1, 100)] "" 0 [] false none false).resolved
      ∧ (processLine ⟨"h", 110, "u", "p", .noneEnc⟩ "now"
          (SessionState.mk .retr [(1, 100)] "" 0 [] false none false)
          "-ERR no such message").1.result
          = (SessionState.mk .retr [(1, 100)] "" 0 [] false none false).result
      ∧ (processLine ⟨"h", 110, "u", "p", .noneEnc⟩ "now"
          (SessionState.mk .retr [(1, 100)] "" 0 [] false none false)
          "-ERR no such message").2 = []
      ∧ (processLine ⟨"h", 110, "u", "p", .noneEnc⟩ "now"
          (SessionState.mk .retr [(1, 100)] "" 0 [] false none false)
          "-ERR no such message").1.currentEmailData
          = (SessionState.mk .retr [(1, 100)] "" 0 [] false none false).currentEmailData
              ++ unstuff "-ERR no such message" ++ "\r\n"
      ∧ (∀ l : String, startsWith "-ERR" l = true → l ≠ ".")
      ∧ ((SessionState.mk .retr [(1, 100)] "" 0 [] false none false).resolved = false →
          (onTimeout ⟨"h", 110, "u", "p", .noneEnc⟩
            (processLine ⟨"h", 110, "u", "p", .noneEnc⟩ "now"
              (SessionState.mk .retr [(1, 100)] "" 0 [] false none false)
              "-ERR no such message").1).resolved = true
          ∧ ((onTimeout ⟨"h", 110, "u", "p", .noneEnc⟩
              (processLine ⟨"h", 110, "u", "p", .noneEnc⟩ "now"
                (SessionState.mk .retr [(1, 100)] "" 0 [] false none false)
                "-ERR no such message").1).result.map FetchResult.success)
              = some false)) :=
  ⟨rfl, by decide, retr_err_line_accumulated ⟨"h", 110, "u", "p", .noneEnc⟩ "now"
    (SessionState.mk .retr [(1, 100)] "" 0 [] false none false)
    "-ERR no such message" rfl (by decide)⟩

/-! ### Claim C4: exactly `min(n,10)` sequential RETRs over the last ten -/

/-- Expected transcript of the retrieval phase from just after a `RETR` was
written, with `ns` the entries still to fetch after the current one: each
dot terminator is followed immediately by the `RETR` for the next entry, and
the last terminator by `QUIT`. -/
def retrPhaseEvents (f : Bool) : List (Nat × Nat) → List Event
  | [] => [.recvd ".", .sent f "QUIT"]
  | e :: rest => .recvd "." :: .sent f ("RETR " ++ Nat.repr e.1) :: retrPhaseEvents f rest

/-- Whether an event is a written `RETR` command. -/
def isRETRev (e : Event) : Bool :=
  match e with
  | .sent _ c => startsWith "RETR" c
  | .recvd _ => false

/-- Number of `RETR` commands in a transcript. -/
def countRETR (tr : List Event) : Nat := (tr.filter isRETRev).length

theorem lastTen_length (L : List (Nat × Nat)) :
    (lastTen L).length = min L.length 10 := by
  simp only [lastTen, List.length_drop]
  omega

theorem sw_retr_of_retr (s : String) : startsWith "RETR" ("RETR " ++ s) = true := by
  have h := sw_self_append "RETR" (" " ++ s)
  rw [← String.append_assoc] at h
  exact h

theorem countRETR_retrPhase (f : Bool) :
    ∀ ns : List (Nat × Nat), countRETR (retrPhaseEvents f ns) = ns.length
  | [] => rfl
  | e :: rest => by
    simp only [retrPhaseEvents, countRETR, List.filter, isRETRev, sw_retr_of_retr]
    have ih := countRETR_retrPhase f rest
    simp only [countRETR] at ih
    simp [ih]

theorem drop_cons_facts {α : Type} (d : α) :
    ∀ (xs : List α) (i : Nat) (a : α) (t : List α), xs.drop i = a :: t →
      i < xs.length ∧ xs.getD i d = a ∧ xs.drop (i + 1) = t := by
  intro xs
  induction xs with
  | nil => intro i a t h; simp at h
  | cons x xs ih =>
    intro i a t h
    cases i with
    | zero =>
      simp only [List.drop] at h
      cases h
      refine ⟨by simp, rfl, rfl⟩
    | succ j =>
      have h' : xs.drop j = a :: t := h
      rcases ih j a t h' with ⟨h1, h2, h3⟩
      exact ⟨by simp; omega, h2, h3⟩

theorem drop_nil_len {α : Type} :
    ∀ (xs : List α) (i : Nat), xs.drop i = [] → xs.length ≤ i := by
  intro xs
  induction xs with
  | nil => intro i _; simp
  | cons x xs ih =>
    intro i h
    cases i with
    | zero => simp at h
    | succ j =>
      have := ih j h
      simp only [List.length_cons]
      omega

/-- Invariant of the retrieval loop: from the retrieving state at index `i`,
with `ns` the entries of the last-ten window after index `i`, feeding one
terminator per remaining message produces exactly the expected transcript, one
decoded record appended per terminator, and a final successful resolution. -/
theorem retrLoop (cfg : POP3Config) (nowIso : String) (L : List (Nat × Nat)) (f : Bool) :
    ∀ (ns : List (Nat × Nat)) (i : Nat) (es : List Email) (d : String),
      (lastTen L).drop (i + 1) = ns →
      (runLines cfg nowIso (SessionState.mk .retr L d i es false none f)
          (List.replicate (ns.length + 1) ".")).2 = retrPhaseEvents f ns
      ∧ (runLines cfg nowIso (SessionState.mk .retr L d i es false none f)
          (List.replicate (ns.length + 1) ".")).1.resolved = true
      ∧ (runLines cfg nowIso (SessionState.mk .retr L d i es false none f)
          (List.replicate (ns.length + 1) ".")).1.result
        = some ⟨true, some (runLines cfg nowIso (SessionState.mk .retr L d i es false none f)
            (List.replicate (ns.length + 1) ".")).1.emails, none⟩
      ∧ (runLines cfg nowIso (SessionState.mk .retr L d i es false none f)
          (List.replicate (ns.length + 1) ".")).1.emails.length
        = es.length + ns.length + 1 := by
  intro ns
  induction ns with
  | nil =>
    intro i es d hdrop
    have hlen := drop_nil_len (lastTen L) (i + 1) hdrop
    have hnlt : ¬ (i + 1 < (lastTen L).length) := by omega
    have hstep :
        processLine cfg nowIso (SessionState.mk .retr L d i es false none f) "."
          = (SessionState.mk .retr L d (i + 1)
              (es ++ [parseEmailFromRawRec nowIso d]) true
              (some ⟨true, some (es ++ [parseEmailFromRawRec nowIso d]), none⟩) f,
             [.sent f "QUIT"]) := by
      simp [processLine, parseEmailFromRaw, hnlt]
    have hrun :
        runLines cfg nowIso (SessionState.mk .retr L d i es false none f) ["."]
          = ((SessionState.mk .retr L d (i + 1)
              (es ++ [parseEmailFromRawRec nowIso d]) true
              (some ⟨true, some (es ++ [parseEmailFromRawRec nowIso d]), none⟩) f),
             [.recvd ".", .sent f "QUIT"]) := by
      simp only [runLines, hstep]
      rfl
    simp only [List.length_nil, Nat.zero_add, List.replicate, hrun]
    simp [retrPhaseEvents]
  | cons e rest ih =>
    intro i es d hdrop
    rcases drop_cons_facts (0, 0) (lastTen L) (i + 1) e rest hdrop with ⟨hlt, hget, hdrop'⟩
    have hgetE : ∀ hh : i + 1 < (lastTen L).length, (lastTen L)[i + 1] = e := by
      intro hh
      have h1 : (lastTen L).getD (i + 1) (0, 0) = ((lastTen L)[i + 1]?).getD (0, 0) :=
        List.getD_eq_getElem?_getD _ _ _
      rw [List.getElem?_eq_getElem hh] at h1
      simp only [Option.getD_some] at h1
      exact h1.symm.trans hget
    have hstep :
        processLine cfg nowIso (SessionState.mk .retr L d i es false none f) "."
          = (SessionState.mk .retr L ""
              (i + 1) (es ++ [parseEmailFromRawRec nowIso d]) false none f,
             [.sent f ("RETR " ++ Nat.repr e.1)]) := by
      simp [processLine, parseEmailFromRaw, hlt, hgetE]
    have ihr := ih (i + 1) (es ++ [parseEmailFromRawRec nowIso d]) "" hdrop'
    rcases ihr with ⟨ih1, ih2, ih3, ih4⟩
    have hrep : List.replicate ((e :: rest).length + 1) ("." : String)
        = "." :: List.replicate (rest.length + 1) "." := by
      simp [List.replicate_succ]
    rw [hrep]
    have hrw :
        runLines cfg nowIso (SessionState.mk .retr L d i es false none f)
            ("." :: List.replicate (rest.length + 1) ".")
          = ((runLines cfg nowIso
                (SessionState.mk .retr L "" (i + 1)
                  (es ++ [parseEmailFromRawRec nowIso d]) false none f)
                (List.replicate (rest.length + 1) ".")).1,
             Event.recvd "." :: (.sent f ("RETR " ++ Nat.repr e.1) ::
               (runLines cfg nowIso
                 (SessionState.mk .retr L "" (i + 1)
                   (es ++ [parseEmailFromRawRec nowIso d]) false none f)
                 (List.replicate (rest.length + 1) ".")).2)) := by
      show (let p := processLine cfg nowIso (SessionState.mk .retr L d i es false none f) ".";
        if p.1.resolved = true then (p.1, Event.recvd "." :: p.2)
        else
          let r := runLines cfg nowIso p.1 (List.replicate (rest.length + 1) ".")
          (r.1, Event.recvd "." :: (p.2 ++ r.2))) = _
      rw [hstep]
      rfl
    rw [hrw]
    refine ⟨?_, ?_, ?_, ?_⟩
    · simp only [retrPhaseEvents]
      rw [← ih1]
    · exact ih2
    · exact ih3
    · rw [ih4]
      simp only [List.length_append, List.length_cons]
      simp
      omega

/-- C4 (confirmed): with a non-empty LIST of `n` entries, the session issues
`RETR` for exactly `min(n,10)` messages — the last ten entries by list order,
in order — where each `RETR` after the first is written immediately after the
dot terminator of the previous response has been consumed (and a decoded
`MessageRecord` appended per terminator: the final email count equals
`min(n,10)`), a `QUIT` follows the last terminator, and no command at all is
written while a retrieval response is still being accumulated. -/
theorem retr_count_last_ten (cfg : POP3Config) (nowIso : String)
    (L : List (Nat × Nat)) (f : Bool) (hL : L ≠ [])
    (R : SessionState × List Event)
    (hR : R = runLines cfg nowIso (SessionState.mk .list L "" 0 [] false none f)
        ("." :: List.replicate (lastTen L).length ".")) :
    (lastTen L).length = min L.length 10
    ∧ R.2 = .recvd "." :: .sent f ("RETR " ++ Nat.repr ((lastTen L).getD 0 (0, 0)).1)
        :: retrPhaseEvents f ((lastTen L).drop 1)
    ∧ countRETR R.2 = min L.length 10
    ∧ R.1.resolved = true
    ∧ R.1.result = some ⟨true, some R.1.emails, none⟩
    ∧ R.1.emails.length = min L.length 10
    ∧ (∀ (st : SessionState) (line : String), st.currentStep = .retr → line ≠ "." →
        (processLine cfg nowIso st line).2 = []) := by
  have hlen := lastTen_length L
  have hpos : 1 ≤ L.length := by
    cases L with
    | nil => exact absurd rfl hL
    | cons a t => simp
  have hk : 1 ≤ (lastTen L).length := by omega
  have hns : ((lastTen L).drop 1).length + 1 = (lastTen L).length := by
    simp only [List.length_drop]
    omega
  have hstep :
      processLine cfg nowIso (SessionState.mk .list L "" 0 [] false none f) "."
        = (SessionState.mk .retr L "" 0 [] false none f,
           [.sent f ("RETR " ++ Nat.repr ((lastTen L).getD 0 (0, 0)).1)]) := by
    simp [processLine, hL]
  rcases retrLoop cfg nowIso L f ((lastTen L).drop 1) 0 [] "" rfl with ⟨ih1, ih2, ih3, ih4⟩
  have hrep : List.replicate ((lastTen L).length) ("." : String)
      = List.replicate (((lastTen L).drop 1).length + 1) "." := by rw [hns]
  have hrw : R = ((runLines cfg nowIso (SessionState.mk .retr L "" 0 [] false none f)
        (List.replicate (((lastTen L).drop 1).length + 1) ".")).1,
      Event.recvd "." :: (.sent f ("RETR " ++ Nat.repr ((lastTen L).getD 0 (0, 0)).1) ::
        (runLines cfg nowIso (SessionState.mk .retr L "" 0 [] false none f)
          (List.replicate (((lastTen L).drop 1).length + 1) ".")).2)) := by
    rw [hR, hrep]
    show (let p := processLine cfg nowIso (SessionState.mk .list L "" 0 [] false none f) ".";
      if p.1.resolved = true then (p.1, Event.recvd "." :: p.2)
      else
        let r := runLines cfg nowIso p.1
          (List.replicate (((lastTen L).drop 1).length + 1) ".")
        (r.1, Event.recvd "." :: (p.2 ++ r.2))) = _
    rw [hstep]
    rfl
  refine ⟨hlen, ?_, ?_, ?_, ?_, ?_, ?_⟩
  · rw [hrw]
    simp only [ih1]
  · rw [hrw]
    simp only [ih1]
    simp only [countRETR, List.filter, isRETRev, sw_retr_of_retr]
    have hc := countRETR_retrPhase f ((lastTen L).drop 1)
    simp only [countRETR] at hc
    rw [List.length_cons, hc]
    simp only [List.length_drop]
    omega
  · rw [hrw]
    exact ih2
  · rw [hrw]
    exact ih3
  · rw [hrw]
    rw [ih4]
    simp only [List.length_nil, List.length_drop]
    omega
  · intro st line hstep' hline
    simp [processLine, hstep', hline]

/-- Witness for C4 with a twelve-entry mailbox: exactly ten RETRs. -/
theorem retr_count_last_ten_witness :
    (([(1, 10), (2, 20), (3, 30), (4, 40), (5, 50), (6, 60), (7, 70), (8, 80),
       (9, 90), (10, 100), (11, 110), (12, 120)] : List (Nat × Nat)) ≠ [])
    ∧ ((lastTen [(1, 10), (2, 20), (3, 30), (4, 40), (5, 50), (6, 60), (7, 70), (8, 80),
          (9, 90), (10, 100), (11, 110), (12, 120)]).length
        = min ([(1, 10), (2, 20), (3, 30), (4, 40), (5, 50), (6, 60), (7, 70), (8, 80),
            (9, 90), (10, 100), (11, 110), (12, 120)] : List (Nat × Nat)).length 10
      ∧ (runLines ⟨"h", 110, "u", "p", .noneEnc⟩ "now"
          (SessionState.mk .list [(1, 10), (2, 20), (3, 30), (4, 40), (5, 50), (6, 60),
            (7, 70), (8, 80), (9, 90), (10, 100), (11, 110), (12, 120)] "" 0 [] false none false)
          ("." :: List.replicate (lastTen [(1, 10), (2, 20), (3, 30), (4, 40), (5, 50),
            (6, 60), (7, 70), (8, 80), (9, 90), (10, 100), (11, 110), (12, 120)]).length ".")).2
        = .recvd "." :: .sent false ("RETR " ++ Nat.repr ((lastTen [(1, 10), (2, 20), (3, 30),
            (4, 40), (5, 50), (6, 60), (7, 70), (8, 80), (9, 90), (10, 100), (11, 110),
            (12, 120)]).getD 0 (0, 0)).1)
          :: retrPhaseEvents false ((lastTen [(1, 10), (2, 20), (3, 30), (4, 40), (5, 50),
            (6, 60), (7, 70), (8, 80), (9, 90), (10, 100), (11, 110), (12, 120)]).drop 1)
      ∧ countRETR (runLines ⟨"h", 110, "u", "p", .noneEnc⟩ "now"
          (SessionState.mk .list [(1, 10), (2, 20), (3, 30), (4, 40), (5, 50), (6, 60),
            (7, 70), (8, 80), (9, 90), (10, 100), (11, 110), (12, 120)] "" 0 [] false none false)
          ("." :: List.replicate (lastTen [(1, 10), (2, 20), (3, 30), (4, 40), (5, 50),
            (6, 60), (7, 70), (8, 80), (9, 90), (10, 100), (11, 110), (12, 120)]).length ".")).2
        = min ([(1, 10), (2, 20), (3, 30), (4, 40), (5, 50), (6, 60), (7, 70), (8, 80),
            (9, 90), (10, 100), (11, 110), (12, 120)] : List (Nat × Nat)).length 10
      ∧ (runLines ⟨"h", 110, "u", "p", .noneEnc⟩ "now"
          (SessionState.mk .list [(1, 10), (2, 20), (3, 30), (4, 40), (5, 50), (6, 60),
            (7, 70), (8, 80), (9, 90), (10, 100), (11, 110), (12, 120)] "" 0 [] false none false)
          ("." :: List.replicate (lastTen [(1, 10), (2, 20), (3, 30), (4, 40), (5, 50),
            (6, 60), (7, 70), (8, 80), (9, 90), (10, 100), (11, 110), (12, 120)]).length ".")).1.resolved
        = true
      ∧ (runLines ⟨"h", 110, "u", "p", .noneEnc⟩ "now"
          (SessionState.mk .list [(1, 10), (2, 20), (3, 30), (4, 40), (5, 50), (6, 60),
            (7, 70), (8, 80), (9, 90), (10, 100), (11, 110), (12, 120)] "" 0 [] false none false)
          ("." :: List.replicate (lastTen [(1, 10), (2, 20), (3, 30), (4, 40), (5, 50),
            (6, 60), (7, 70), (8, 80), (9, 90), (10, 100), (11, 110), (12, 120)]).length ".")).1.result
        = some ⟨true, some (runLines ⟨"h", 110, "u", "p", .noneEnc⟩ "now"
            (SessionState.mk .list [(1, 10), (2, 20), (3, 30), (4, 40), (5, 50), (6, 60),
              (7, 70), (8, 80), (9, 90), (10, 100), (11, 110), (12, 120)] "" 0 [] false none false)
            ("." :: List.replicate (lastTen [(1, 10), (2, 20), (3, 30), (4, 40), (5, 50),
              (6, 60), (7, 70), (8, 80), (9, 90), (10, 100), (11, 110), (12, 120)]).length ".")).1.emails,
            none⟩
      ∧ (runLines ⟨"h", 110, "u", "p", .noneEnc⟩ "now"
          (SessionState.mk .list [(1, 10), (2, 20), (3, 30), (4, 40), (5, 50), (6, 60),
            (7, 70), (8, 80), (9, 90), (10, 100), (11, 110), (12, 120)] "" 0 [] false none false)
          ("." :: List.replicate (lastTen [(1, 10), (2, 20), (3, 30), (4, 40), (5, 50),
            (6, 60), (7, 70), (8, 80), (9, 90), (10, 100), (11, 110), (12, 120)]).length ".")).1.emails.length
        = min ([(1, 10), (2, 20), (3, 30), (4, 40), (5, 50), (6, 60), (7, 70), (8, 80),
            (9, 90), (10, 100), (11, 110), (12, 120)] : List (Nat × Nat)).length 10
      ∧ (∀ (st : SessionState) (line : String), st.currentStep = .retr → line ≠ "." →
          (processLine ⟨"h", 110, "u", "p", .noneEnc⟩ "now" st line).2 = [])) :=
  ⟨by decide,
   retr_count_last_ten ⟨"h", 110, "u", "p", .noneEnc⟩ "now"
     [(1, 10), (2, 20), (3, 30), (4, 40), (5, 50), (6, 60), (7, 70), (8, 80),
      (9, 90), (10, 100), (11, 110), (12, 120)] false (by decide) _ rfl⟩

/-! ### Claim C6: the `date` field -/

/-- Modelled from the spec: the shape of an ISO-8601 timestamp as produced by
`Date.prototype.toISOString` (`YYYY-MM-DDTHH:MM:SS.mmmZ`), used only to state
that a value is not such a timestamp. -/
def looksISO8601 (s : String) : Bool :=
  match s.data with
  | [y1, y2, y3, y4, c1, m1, m2, c2, d1, d2, t, h1, h2, c3, n1, n2, c4, s1, s2,
     dot, f1, f2, f3, z] =>
    y1.isDigit && y2.isDigit && y3.isDigit && y4.isDigit && c1 == '-' &&
    m1.isDigit && m2.isDigit && c2 == '-' && d1.isDigit && d2.isDigit &&
    t == 'T' && h1.isDigit && h2.isDigit && c3 == ':' && n1.isDigit &&
    n2.isDigit && c4 == ':' && s1.isDigit && s2.isDigit && dot == '.' &&
    f1.isDigit && f2.isDigit && f3.isDigit && z == 'Z'
  | _ => false

/-- The `Date` header as read by `parseEmailFromRaw`. -/
def dateHeaderOf (raw : String) : List Char :=
  getHeaderL (rawHeadersOf raw.data) ("Date".data)

/-- Embeds the IMAP date handling (`fetchIMAPEmails`, lines 415–421): the
preset current-time default is kept when the header is absent; a present
header is converted by `new Date(…).toISOString()` when that succeeds, and
kept verbatim when it throws.  `toIso` abstracts the JS date parser. -/
def imapDateField (toIso : String → Option String) (dateHdr : Option String)
    (initial : String) : String :=
  match dateHdr with
  | none => initial
  | some d =>
    match toIso d with
    | some s => s
    | none => d

/-- C6 (counterexample): the POP3 path stores the `Date` header value
verbatim — for the RFC-822 header `Mon, 01 Jan 2024 10:00:00 +0000` the
record's `date` field is that raw string, which is not an ISO-8601 timestamp
and not the current-time default, contradicting the claim that the field is
always an ISO-8601 string obtained by conversion or defaulting. -/
theorem date_not_iso_counterexample :
    (parseEmailFromRawRec "2026-01-01T00:00:00.000Z"
        "Date: Mon, 01 Jan 2024 10:00:00 +0000\r\n\r\nHello").date
      = "Mon, 01 Jan 2024 10:00:00 +0000"
    ∧ looksISO8601 ((parseEmailFromRawRec "2026-01-01T00:00:00.000Z"
        "Date: Mon, 01 Jan 2024 10:00:00 +0000\r\n\r\nHello").date) = false
    ∧ looksISO8601 "2026-01-01T00:00:00.000Z" = true
    ∧ (parseEmailFromRawRec "2026-01-01T00:00:00.000Z"
        "Date: Mon, 01 Jan 2024 10:00:00 +0000\r\n\r\nHello").date
      ≠ "2026-01-01T00:00:00.000Z" := by
  refine ⟨by decide, by decide, by decide, by decide⟩

/-- C6 (amended): on the POP3 path the `date` field is the raw `Date` header
value whenever that header is present and non-empty, and the supplied
current-time ISO string only when it is absent — no parsing or ISO-8601
conversion happens; on the IMAP path the field is the ISO conversion of the
header when the JS date parser succeeds, the raw header value when it throws,
and the preset current-time default when the header is absent. -/
theorem date_field_amended (nowIso raw : String) (rec : Email)
    (h : parseEmailFromRaw nowIso raw = some rec) :
    (dateHeaderOf raw = [] → rec.date = nowIso)
    ∧ (dateHeaderOf raw ≠ [] → rec.date = ⟨dateHeaderOf raw⟩)
    ∧ (∀ (toIso : String → Option String) (d initial s : String),
        imapDateField toIso none initial = initial
        ∧ (toIso d = some s → imapDateField toIso (some d) initial = s)
        ∧ (toIso d = none → imapDateField toIso (some d) initial = d)) := by
  have hrec : rec = parseEmailFromRawRec nowIso raw := by
    have := h
    simp only [parseEmailFromRaw, Option.some.injEq] at this
    exact this.symm
  subst hrec
  refine ⟨?_, ?_, ?_⟩
  · intro hd
    simp only [parseEmailFromRawRec, dateHeaderOf] at *
    simp [hd]
  · intro hd
    simp only [parseEmailFromRawRec, dateHeaderOf] at *
    simp [hd]
  · intro toIso d initial s
    refine ⟨rfl, ?_, ?_⟩
    · intro hp
      simp [imapDateField, hp]
    · intro hp
      simp [imapDateField, hp]

/-- Witness for the amended C6 at a concrete raw message. -/
theorem date_field_amended_witness :
    parseEmailFromRaw "2026-01-01T00:00:00.000Z"
        "Date: Mon, 01 Jan 2024 10:00:00 +0000\r\n\r\nHello"
      = some (parseEmailFromRawRec "2026-01-01T00:00:00.000Z"
        "Date: Mon, 01 Jan 2024 10:00:00 +0000\r\n\r\nHello")
    ∧ ((dateHeaderOf "Date: Mon, 01 Jan 2024 10:00:00 +0000\r\n\r\nHello" = [] →
        (parseEmailFromRawRec "2026-01-01T00:00:00.000Z"
          "Date: Mon, 01 Jan 2024 10:00:00 +0000\r\n\r\nHello").date
          = "2026-01-01T00:00:00.000Z")
      ∧ (dateHeaderOf "Date: Mon, 01 Jan 2024 10:00:00 +0000\r\n\r\nHello" ≠ [] →
        (parseEmailFromRawRec "2026-01-01T00:00:00.000Z"
          "Date: Mon, 01 Jan 2024 10:00:00 +0000\r\n\r\nHello").date
          = ⟨dateHeaderOf "Date: Mon, 01 Jan 2024 10:00:00 +0000\r\n\r\nHello"⟩)
      ∧ (∀ (toIso : String → Option String) (d initial s : String),
          imapDateField toIso none initial = initial
          ∧ (toIso d = some s → imapDateField toIso (some d) initial = s)
          ∧ (toIso d = none → imapDateField toIso (some d) initial = d))) :=
  ⟨rfl, date_field_amended "2026-01-01T00:00:00.000Z"
    "Date: Mon, 01 Jan 2024 10:00:00 +0000\r\n\r\nHello"
    (parseEmailFromRawRec "2026-01-01T00:00:00.000Z"
      "Date: Mon, 01 Jan 2024 10:00:00 +0000\r\n\r\nHello") rfl⟩

/-! ### Claim C8: the `body` field invariant -/

/-- C8 (counterexample): a message whose decoded body is the literal text
`(No content)` — here a plain-text body with that exact content — produces a
record whose `body` equals the placeholder `"(No content)"` even though the
decoded, trimmed body is non-empty, refuting the claimed `exactly when`. -/
theorem body_sentinel_counterexample :
    (parseEmailFromRawRec "now" "X: y\r\n\r\n(No content)").body = "(No content)"
    ∧ parseMIMEBodyL (rawBodyOf ("X: y\r\n\r\n(No content)".data)) ≠ []
    ∧ rawBodyOf ("X: y\r\n\r\n(No content)".data) = "(No content)".data := by
  refine ⟨by decide, by decide, by decide⟩

/-- C8 (amended): every record's `body` is at most 5000 characters; it is
always either the decoder's output truncated to 5000 characters or the
explicit placeholder `"(No content)"` (never the undecoded input); the
placeholder is produced whenever the decoded, trimmed body is empty — and
conversely a placeholder body means the decoded body was empty, except in the
edge case where the decoded body itself truncates to the literal text
`(No content)`. -/
theorem body_invariant_amended (nowIso raw : String) (rec : Email)
    (h : parseEmailFromRaw nowIso raw = some rec) :
    rec.body.length ≤ 5000
    ∧ (parseMIMEBodyL (rawBodyOf raw.data) = [] → rec.body = "(No content)")
    ∧ (rec.body = "(No content)" →
        parseMIMEBodyL (rawBodyOf raw.data) = []
        ∨ take5000 (parseMIMEBodyL (rawBodyOf raw.data)) = "(No content)".data)
    ∧ (rec.body = "(No content)"
        ∨ rec.body = ⟨take5000 (parseMIMEBodyL (rawBodyOf raw.data))⟩) := by
  have hrec : rec = parseEmailFromRawRec nowIso raw := by
    have := h
    simp only [parseEmailFromRaw, Option.some.injEq] at this
    exact this.symm
  subst hrec
  have hbody : (parseEmailFromRawRec nowIso raw).body
      = if take5000 (parseMIMEBodyL (rawBodyOf raw.data)) = [] then "(No content)"
        else ⟨take5000 (parseMIMEBodyL (rawBodyOf raw.data))⟩ := rfl
  refine ⟨?_, ?_, ?_, ?_⟩
  · rw [hbody]
    by_cases he : take5000 (parseMIMEBodyL (rawBodyOf raw.data)) = []
    · rw [if_pos he]
      decide
    · rw [if_neg he]
      show (take5000 (parseMIMEBodyL (rawBodyOf raw.data))).length ≤ 5000
      simp only [take5000, List.length_take]
      omega
  · intro hnil
    rw [hbody, hnil]
    rfl
  · intro hplace
    rw [hbody] at hplace
    by_cases he : take5000 (parseMIMEBodyL (rawBodyOf raw.data)) = []
    · left
      simp only [take5000] at he
      rcases List.take_eq_nil_iff.mp he with h5 | hl
      · exact absurd h5 (by decide)
      · exact hl
    · right
      rw [if_neg he] at hplace
      have : (⟨take5000 (parseMIMEBodyL (rawBodyOf raw.data))⟩ : String).data
          = ("(No content)" : String).data := by rw [hplace]
      exact this
  · rw [hbody]
    by_cases he : take5000 (parseMIMEBodyL (rawBodyOf raw.data)) = []
    · left; rw [if_pos he]
    · right; rw [if_neg he]

/-- Witness for the amended C8 at a concrete raw message. -/
theorem body_invariant_amended_witness :
    parseEmailFromRaw "now" "X: y\r\n\r\nHello"
      = some (parseEmailFromRawRec "now" "X: y\r\n\r\nHello")
    ∧ ((parseEmailFromRawRec "now" "X: y\r\n\r\nHello").body.length ≤ 5000
      ∧ (parseMIMEBodyL (rawBodyOf ("X: y\r\n\r\nHello" : String).data) = [] →
          (parseEmailFromRawRec "now" "X: y\r\n\r\nHello").body = "(No content)")
      ∧ ((parseEmailFromRawRec "now" "X: y\r\n\r\nHello").body = "(No content)" →
          parseMIMEBodyL (rawBodyOf ("X: y\r\n\r\nHello" : String).data) = []
          ∨ take5000 (parseMIMEBodyL (rawBodyOf ("X: y\r\n\r\nHello" : String).data))
              = "(No content)".data)
      ∧ ((parseEmailFromRawRec "now" "X: y\r\n\r\nHello").body = "(No content)"
          ∨ (parseEmailFromRawRec "now" "X: y\r\n\r\nHello").body
              = ⟨take5000 (parseMIMEBodyL (rawBodyOf ("X: y\r\n\r\nHello" : String).data))⟩)) :=
  ⟨rfl, body_invariant_amended "now" "X: y\r\n\r\nHello"
    (parseEmailFromRawRec "now" "X: y\r\n\r\nHello") rfl⟩

/-! ### Claim C9: multipart selection policy -/

/-- Predicate of the parts that can ever populate the plain-text slot: not a
skipped (`--`/empty) part, content type containing `text/plain`, and decoded
content non-empty (an empty decode leaves the falsy slot unchanged). -/
def plainPredP (p : List Char) : Bool :=
  !(trimL p = "--".data || trimL p = []) &&
    (containsSub ("text/plain".data) (partCT p) && !(decodePart p = []))

/-- Same for the html slot. -/
def htmlPredP (p : List Char) : Bool :=
  !(trimL p = "--".data || trimL p = []) &&
    (containsSub ("text/html".data) (partCT p) && !(decodePart p = []))

/-- Decoded content of the first part that can populate the plain-text slot. -/
def firstPlain (parts : List (List Char)) : List Char :=
  match parts.find? plainPredP with
  | some p => decodePart p
  | none => []

/-- Decoded content of the first part that can populate the html slot. -/
def firstHtml (parts : List (List Char)) : List Char :=
  match parts.find? htmlPredP with
  | some p => decodePart p
  | none => []

theorem collect_fst :
    ∀ (parts : List (List Char)) (tc hc : List Char),
      (parts.foldl collectStep (tc, hc)).1 = if tc = [] then firstPlain parts else tc := by
  intro parts
  induction parts with
  | nil =>
    intro tc hc
    by_cases htc : tc = [] <;> simp [firstPlain, List.find?, htc]
  | cons p parts ih =>
    intro tc hc
    by_cases hsk1 : trimL p = "--".data <;>
      by_cases hsk2 : trimL p = [] <;>
        by_cases hpl : containsSub ("text/plain".data) (partCT p) = true <;>
          by_cases hht : containsSub ("text/html".data) (partCT p) = true <;>
            by_cases hdec : decodePart p = [] <;>
              by_cases htc : tc = [] <;>
                by_cases hhc : hc = [] <;>
                  simp [collectStep, firstPlain, plainPredP, List.find?, List.foldl,
                    hsk1, hsk2, hpl, hht, hdec, htc, hhc, ih]

theorem collect_snd :
    ∀ (parts : List (List Char)) (tc hc : List Char),
      (∀ p ∈ parts, ¬(containsSub ("text/plain".data) (partCT p) = true
        ∧ containsSub ("text/html".data) (partCT p) = true)) →
      (parts.foldl collectStep (tc, hc)).2 = if hc = [] then firstHtml parts else hc := by
  intro parts
  induction parts with
  | nil =>
    intro tc hc _
    by_cases hhc : hc = [] <;> simp [firstHtml, List.find?, hhc]
  | cons p parts ih =>
    intro tc hc hsep
    have hsep1 := hsep p (List.mem_cons_self p parts)
    have hsepR : ∀ q ∈ parts, ¬(containsSub ("text/plain".data) (partCT q) = true
        ∧ containsSub ("text/html".data) (partCT q) = true) :=
      fun q hq => hsep q (List.mem_cons_of_mem p hq)
    have ih' : ∀ tc' hc', (parts.foldl collectStep (tc', hc')).2
        = if hc' = [] then firstHtml parts else hc' := fun tc' hc' => ih tc' hc' hsepR
    by_cases hpl : containsSub ("text/plain".data) (partCT p) = true <;>
      by_cases hht : containsSub ("text/html".data) (partCT p) = true
    · exact absurd ⟨hpl, hht⟩ hsep1
    all_goals
      by_cases hsk1 : trimL p = "--".data <;>
        by_cases hsk2 : trimL p = [] <;>
          by_cases hdec : decodePart p = [] <;>
            by_cases htc : tc = [] <;>
              by_cases hhc : hc = [] <;>
                simp [collectStep, firstHtml, htmlPredP, List.find?, List.foldl,
                  hsk1, hsk2, hpl, hht, hdec, htc, hhc, ih']

/-- The §8 example: a multipart body with boundary `XYZ`, one `text/plain`
part containing `Plain body` and one `text/html` part. -/
def exMultipart : String :=
  "Content-Type: multipart/alternative; boundary=\"XYZ\"\r\n\r\n--XYZ\r\nContent-Type: text/plain\r\n\r\nPlain body\r\n--XYZ\r\nContent-Type: text/html\r\n\r\n<b>HTML</b>\r\n--XYZ--\r\n"

/-- The same multipart message but with an empty `text/plain` part body. -/
def exEmptyPlain : String :=
  "Content-Type: multipart/alternative; boundary=\"XYZ\"\r\n\r\n--XYZ\r\nContent-Type: text/plain\r\n\r\n--XYZ\r\nContent-Type: text/html\r\n\r\n<b>HTML</b>\r\n--XYZ--\r\n"

set_option maxRecDepth 400000 in
/-- C9 (counterexample): a multipart body containing a `text/plain` part
(part index 1 of the boundary split) whose decoded, trimmed content is empty,
plus a `text/html` part: the decoder returns the stripped html `HTML` rather
than the first `text/plain` part's trimmed content — so the decoder does not
always return the first encountered `text/plain` part, and it can fall back
to html even though a `text/plain` part exists. -/
theorem mime_selection_counterexample :
    parseMIMEBody exEmptyPlain = "HTML"
    ∧ containsSub ("text/plain".data)
        (partCT ((splitOnL ('-' :: '-' :: "XYZ".data) exEmptyPlain.data).getD 1 [])) = true
    ∧ trimL (decodePart ((splitOnL ('-' :: '-' :: "XYZ".data) exEmptyPlain.data).getD 1 [])) = []
    ∧ parseMIMEBody exEmptyPlain
      ≠ ⟨trimL (decodePart ((splitOnL ('-' :: '-' :: "XYZ".data) exEmptyPlain.data).getD 1 []))⟩ := by
  refine ⟨by decide, by decide, by decide, by decide⟩

set_option maxRecDepth 400000 in
/-- C9 (amended): for a multipart body (with declared boundary `b`, no part
declaring both `text/plain` and `text/html`), the decoder returns the decoded
content of the first `text/plain` part with non-empty decoded content,
trimmed; only when no `text/plain` part decodes to non-empty content does it
return the first non-empty `text/html` part run through the html stripping
pipeline (style/script blocks and tags stripped, the fixed entity table
decoded, whitespace collapsed); with neither present it applies the
last-resort fallback.  In particular the §8 example decodes to exactly
`Plain body`. -/
theorem mime_selection_amended (rawBody : String) (b : List Char)
    (hb : findBoundary rawBody.data = some b)
    (hsep : ∀ p ∈ splitOnL ('-' :: '-' :: b) rawBody.data,
      ¬(containsSub ("text/plain".data) (partCT p) = true
        ∧ containsSub ("text/html".data) (partCT p) = true)) :
    parseMIMEBody rawBody
      = (if firstPlain (splitOnL ('-' :: '-' :: b) rawBody.data) ≠ [] then
          ⟨trimL (firstPlain (splitOnL ('-' :: '-' :: b) rawBody.data))⟩
        else if firstHtml (splitOnL ('-' :: '-' :: b) rawBody.data) ≠ [] then
          ⟨htmlPipeline (firstHtml (splitOnL ('-' :: '-' :: b) rawBody.data))⟩
        else ⟨fallbackPipe rawBody.data⟩)
    ∧ parseMIMEBody exMultipart = "Plain body" := by
  constructor
  · have hne : ¬(rawBody.data = []) := by
      intro h0
      rw [h0] at hb
      have hnone : findBoundary ([] : List Char) = none := rfl
      rw [hnone] at hb
      exact Option.noConfusion hb
    have h1 : (collectParts (splitOnL ('-' :: '-' :: b) rawBody.data)).1
        = firstPlain (splitOnL ('-' :: '-' :: b) rawBody.data) := by
      have := collect_fst (splitOnL ('-' :: '-' :: b) rawBody.data) [] []
      simpa [collectParts] using this
    have h2 : (collectParts (splitOnL ('-' :: '-' :: b) rawBody.data)).2
        = firstHtml (splitOnL ('-' :: '-' :: b) rawBody.data) := by
      have := collect_snd (splitOnL ('-' :: '-' :: b) rawBody.data) [] [] hsep
      simpa [collectParts] using this
    simp only [parseMIMEBody, parseMIMEBodyL]
    rw [if_neg hne]
    simp only [hb, h1, h2]
    by_cases hp : firstPlain (splitOnL ('-' :: '-' :: b) rawBody.data) ≠ []
    · rw [if_pos hp, if_pos hp]
    · rw [if_neg hp, if_neg hp]
      by_cases hh : firstHtml (splitOnL ('-' :: '-' :: b) rawBody.data) ≠ []
      · rw [if_pos hh, if_pos hh]
      · rw [if_neg hh, if_neg hh]
  · decide

set_option maxRecDepth 400000 in
/-- Witness for the amended C9 at the §8 example body. -/
theorem mime_selection_amended_witness :
    findBoundary exMultipart.data = some ("XYZ".data)
    ∧ (∀ p ∈ splitOnL ('-' :: '-' :: "XYZ".data) exMultipart.data,
        ¬(containsSub ("text/plain".data) (partCT p) = true
          ∧ containsSub ("text/html".data) (partCT p) = true))
    ∧ (parseMIMEBody exMultipart
        = (if firstPlain (splitOnL ('-' :: '-' :: "XYZ".data) exMultipart.data) ≠ [] then
            ⟨trimL (firstPlain (splitOnL ('-' :: '-' :: "XYZ".data) exMultipart.data))⟩
          else if firstHtml (splitOnL ('-' :: '-' :: "XYZ".data) exMultipart.data) ≠ [] then
            ⟨htmlPipeline (firstHtml (splitOnL ('-' :: '-' :: "XYZ".data) exMultipart.data))⟩
          else ⟨fallbackPipe exMultipart.data⟩)
      ∧ parseMIMEBody exMultipart = "Plain body") :=
  ⟨by decide, by decide,
   mime_selection_amended exMultipart ("XYZ".data) (by decide) (by decide)⟩

end Mail
